import Mathlib

set_option maxHeartbeats 1000000

namespace TimeMan

/- Shallow embedding of the duration-encoding core of TimeMan (src/main.rs):
the field mask (TimedeltaFlags), the encoder (timedelta_to_str), the decoder
(timedelta_from_str) and the human phrase renderer (timedelta_str_to_preety),
together with the parts of the chrono TimeDelta representation the code relies
on.  i64 and u32 arithmetic is modelled with explicit two's-complement
wrapping at every operation that can overflow in the original.  All integer
divisions performed by the code act on non-negative operands, where Rust's
truncating division agrees with Lean's division on Int. -/

/-- Two's-complement wrap of an i64 arithmetic result. -/
def wrap64 (x : Int) : Int :=
  (x + 9223372036854775808) % 18446744073709551616 - 9223372036854775808

/-- Decimal digit character, as produced by Rust integer formatting
(only ever applied to values below 10). -/
def digitChar : Nat → Char
  | 0 => '0'
  | 1 => '1'
  | 2 => '2'
  | 3 => '3'
  | 4 => '4'
  | 5 => '5'
  | 6 => '6'
  | 7 => '7'
  | 8 => '8'
  | _ => '9'

/-- Fuel-driven decimal printing of a natural number, most significant digit
first; with fuel above the value it is plain decimal notation. -/
def natDigitsGo : Nat → Nat → List Char
  | 0, _ => []
  | fuel + 1, n =>
    if n < 10 then [digitChar n]
    else natDigitsGo fuel (n / 10) ++ [digitChar (n % 10)]

/-- Decimal representation of a natural number, as Rust `{}` formatting. -/
def natDigits (n : Nat) : List Char := natDigitsGo (n + 1) n

/-- Decimal representation of an i64 value, as Rust `{}` formatting. -/
def intDigits (n : Int) : List Char :=
  if n < 0 then '-' :: natDigits n.natAbs else natDigits n.toNat

/-- TimedeltaFlags: a u8 bit set selecting duration units (main.rs:422-484). -/
structure TimedeltaFlags where
  bits : Nat
deriving DecidableEq

instance : OrOp TimedeltaFlags := ⟨fun a b => ⟨a.bits ||| b.bits⟩⟩

def TimedeltaFlags.YEAR : TimedeltaFlags := ⟨1⟩

def TimedeltaFlags.MONTH : TimedeltaFlags := ⟨2⟩

def TimedeltaFlags.WEEK : TimedeltaFlags := ⟨4⟩

def TimedeltaFlags.DAY : TimedeltaFlags := ⟨8⟩

def TimedeltaFlags.HOUR : TimedeltaFlags := ⟨16⟩

def TimedeltaFlags.MINUTE : TimedeltaFlags := ⟨32⟩

def TimedeltaFlags.SECOND : TimedeltaFlags := ⟨64⟩

def TimedeltaFlags.NANOS : TimedeltaFlags := ⟨128⟩

def TimedeltaFlags.empty : TimedeltaFlags := ⟨0⟩

def TimedeltaFlags.all : TimedeltaFlags :=
  TimedeltaFlags.YEAR ||| TimedeltaFlags.MONTH ||| TimedeltaFlags.WEEK |||
  TimedeltaFlags.DAY ||| TimedeltaFlags.HOUR ||| TimedeltaFlags.MINUTE |||
  TimedeltaFlags.SECOND ||| TimedeltaFlags.NANOS

def TimedeltaFlags.contains (a b : TimedeltaFlags) : Bool :=
  a.bits &&& b.bits == b.bits

/-- One character of `TimedeltaFlags::new`'s match (main.rs:471-480). -/
def TimedeltaFlags.newStep (out : TimedeltaFlags) (c : Char) : TimedeltaFlags :=
  if c = 'Y' then out ||| TimedeltaFlags.YEAR
  else if c = 'M' then out ||| TimedeltaFlags.MONTH
  else if c = 'D' then out ||| TimedeltaFlags.DAY
  else if c = 'h' then out ||| TimedeltaFlags.HOUR
  else if c = 'm' then out ||| TimedeltaFlags.MINUTE
  else if c = 's' then out ||| TimedeltaFlags.SECOND
  else if c = 'n' then out ||| TimedeltaFlags.NANOS
  else out

/-- TimedeltaFlags::new (main.rs:468-483). -/
def TimedeltaFlags.new (s : String) : TimedeltaFlags :=
  s.data.foldl TimedeltaFlags.newStep TimedeltaFlags.empty

/-- TimedeltaFlags::default = SECOND | NANOS (main.rs:433-437). -/
def TimedeltaFlags.deflt : TimedeltaFlags :=
  TimedeltaFlags.SECOND ||| TimedeltaFlags.NANOS

def YEAR_IN_SECONDS : Int := 31536000

def MONTH_IN_SECONDS : Int := YEAR_IN_SECONDS / 12

def WEAK_IN_SECONDS : Int := 604800

def DAY_IN_SECONDS : Int := 86400

def HOUR_IN_SECONDS : Int := 3600

def MINUTE_IN_SECONDS : Int := 60

/-- chrono::TimeDelta: seconds field (i64) and nanoseconds field (i32),
with the library invariant 0 ≤ nanos < 10^9 and the millisecond-range bound
on secs.  The code reads both fields directly (by pointer) in the encoder. -/
structure TimeDelta where
  secs : Int
  nanos : Int
deriving DecidableEq

def MAX_SECS : Int := 9223372036854775

def MAX_NANOS : Int := 807000000

def MIN_SECS : Int := -9223372036854776

def MIN_NANOS : Int := 193000000

/-- chrono::TimeDelta::new: fails when nanos ≥ 10^9 or the pair is out of the
representable millisecond range. -/
def TimeDelta.new (secs : Int) (nanos : Nat) : Option TimeDelta :=
  if secs < MIN_SECS ∨ secs > MAX_SECS ∨ (nanos : Int) ≥ 1000000000
      ∨ (secs = MAX_SECS ∧ (nanos : Int) > MAX_NANOS)
      ∨ (secs = MIN_SECS ∧ (nanos : Int) < MIN_NANOS) then none
  else some ⟨secs, (nanos : Int)⟩

/-- chrono::TimeDelta::num_seconds: total whole seconds, truncated toward
zero. -/
def TimeDelta.num_seconds (td : TimeDelta) : Int :=
  if td.secs < 0 ∧ 0 < td.nanos then td.secs + 1 else td.secs

/-- The representation invariant chrono maintains for every constructed
TimeDelta (exactly the success condition of TimeDelta.new). -/
def TimeDelta.Valid (td : TimeDelta) : Prop :=
  MIN_SECS ≤ td.secs ∧ td.secs ≤ MAX_SECS ∧ 0 ≤ td.nanos ∧ td.nanos < 1000000000
    ∧ (td.secs = MAX_SECS → td.nanos ≤ MAX_NANOS)
    ∧ (td.secs = MIN_SECS → MIN_NANOS ≤ td.nanos)

instance (td : TimeDelta) : Decidable td.Valid := by
  unfold TimeDelta.Valid; infer_instance

/-- One unit block of timedelta_to_str (the repeated if-contains / divide /
subtract / append pattern of main.rs:502-532 and 541-555), acting on the
(remaining seconds, output) pair. -/
def encUnit (flags flag : TimedeltaFlags) (unit : Int) (letter : Char)
    (st : Int × List Char) : Int × List Char :=
  if flags.contains flag then
    let n := st.1 / unit
    if 0 < n then (st.1 - n * unit, st.2 ++ intDigits n ++ [letter]) else st
  else st

/-- timedelta_to_str (main.rs:493-567), producing the character list of the
output string.  The seconds value is the absolute value of the raw i64
seconds field; the nanosecond value is the absolute value of the raw i32
nanoseconds field (the pointer reads at main.rs:500 and 558). -/
def timedelta_to_chars (td : TimeDelta) (flags : TimedeltaFlags) : List Char :=
  let out : List Char := if td.num_seconds < 0 then ['-'] else []
  let out := out ++ ['P']
  let st : Int × List Char := (|td.secs|, out)
  let st := encUnit flags TimedeltaFlags.YEAR YEAR_IN_SECONDS 'Y' st
  let st := encUnit flags TimedeltaFlags.MONTH MONTH_IN_SECONDS 'M' st
  let st := encUnit flags TimedeltaFlags.WEEK WEAK_IN_SECONDS 'W' st
  let st := encUnit flags TimedeltaFlags.DAY DAY_IN_SECONDS 'D' st
  let st :=
    if flags.contains TimedeltaFlags.HOUR || flags.contains TimedeltaFlags.MINUTE
        || flags.contains TimedeltaFlags.SECOND then
      (st.1, st.2 ++ ['T'])
    else st
  let st := encUnit flags TimedeltaFlags.HOUR HOUR_IN_SECONDS 'H' st
  let st := encUnit flags TimedeltaFlags.MINUTE MINUTE_IN_SECONDS 'M' st
  if flags.contains TimedeltaFlags.SECOND then
    let nanos : Int := |td.nanos|
    if nanos != 0 && flags.contains TimedeltaFlags.NANOS then
      st.2 ++ intDigits st.1 ++ ['.'] ++ intDigits nanos ++ ['S']
    else
      st.2 ++ intDigits st.1 ++ ['S']
  else st.2

def timedelta_to_str (td : TimeDelta) (flags : TimedeltaFlags) : String :=
  String.mk (timedelta_to_chars td flags)

/-- State of the decoding loop of timedelta_from_str (main.rs:635-654). -/
structure DecodeState where
  seconds : Int
  nanos : Nat
  num1 : Int
  num2 : Nat
  dec : Bool
  time : Bool
deriving DecidableEq

/-- The ten digit characters matched by the first arm of the decode and
prettify loops. -/
def isDigitChar (c : Char) : Bool :=
  c == '0' || c == '1' || c == '2' || c == '3' || c == '4' ||
  c == '5' || c == '6' || c == '7' || c == '8' || c == '9'

/-- The main character loop of timedelta_from_str (main.rs:656-703).
num1 is an i64, num2 and nanos are u32, seconds is an i64; every arithmetic
step wraps accordingly. -/
def decodeLoop : List Char → DecodeState → Option DecodeState
  | [], st => some st
  | c :: cs, st =>
    if isDigitChar c then
      let num : Nat := c.toNat - 48
      if !st.dec then
        decodeLoop cs { st with num1 := wrap64 (wrap64 (st.num1 * 10) + (num : Int)) }
      else
        decodeLoop cs { st with num2 := ((st.num2 * 10) % 4294967296 + num) % 4294967296 }
    else if c = 'Y' then
      decodeLoop cs { st with
        seconds := wrap64 (st.seconds + wrap64 (st.num1 * YEAR_IN_SECONDS)), num1 := 0 }
    else if c = 'M' then
      if st.time then
        decodeLoop cs { st with
          seconds := wrap64 (st.seconds + wrap64 (st.num1 * MINUTE_IN_SECONDS)), num1 := 0 }
      else
        decodeLoop cs { st with
          seconds := wrap64 (st.seconds + wrap64 (st.num1 * MONTH_IN_SECONDS)), num1 := 0 }
    else if c = 'W' then
      decodeLoop cs { st with
        seconds := wrap64 (st.seconds + wrap64 (st.num1 * WEAK_IN_SECONDS)), num1 := 0 }
    else if c = 'D' then
      decodeLoop cs { st with
        seconds := wrap64 (st.seconds + wrap64 (st.num1 * DAY_IN_SECONDS)), num1 := 0 }
    else if c = 'T' then
      decodeLoop cs { st with num1 := 0, time := true }
    else if c = 'H' then
      decodeLoop cs { st with
        seconds := wrap64 (st.seconds + wrap64 (st.num1 * HOUR_IN_SECONDS)), num1 := 0 }
    else if c = '.' then
      decodeLoop cs { st with dec := true }
    else if c = 'S' then
      decodeLoop cs { st with
        seconds := wrap64 (st.seconds + st.num1), nanos := (st.nanos + st.num2) % 4294967296 }
    else none

/-- The lead-in loop of timedelta_from_str (main.rs:646-652): consume
characters, each '-' setting the sign to -1, until a 'P' is found; anything
else (or end of input) fails. -/
def parseLead : List Char → Int → Option (Int × List Char)
  | [], _ => none
  | c :: cs, sign =>
    if c = '-' then parseLead cs (-1)
    else if c = 'P' then some (sign, cs)
    else none

def initState : DecodeState := ⟨0, 0, 0, 0, false, false⟩

/-- timedelta_from_str (main.rs:634-706). -/
def timedelta_from_str (s : String) : Option TimeDelta :=
  match parseLead s.data 1 with
  | none => none
  | some (sign, rest) =>
    match decodeLoop rest initState with
    | none => none
    | some st => TimeDelta.new (wrap64 (st.seconds * sign)) st.nanos

/-- State of the prettify loop (main.rs:570-576): output, num1 (u64),
num2 (u32), decimal flag, time-portion flag. -/
structure PrettyState where
  out : List Char
  num1 : Nat
  num2 : Nat
  dec : Bool
  time : Bool
deriving DecidableEq

/-- One character of the timedelta_str_to_preety loop (main.rs:578-629). -/
def pretty_step (st : PrettyState) (c : Char) : PrettyState :=
  let s : List Char := if 1 < st.num1 then ['s'] else []
  if isDigitChar c then
    let num := c.toNat - 48
    if st.dec then
      { st with num2 := ((st.num2 * 10) % 4294967296 + num) % 4294967296 }
    else
      { st with num1 := ((st.num1 * 10) % 18446744073709551616 + num) % 18446744073709551616 }
  else if c = '.' then { st with dec := true }
  else if c = '-' then { st with out := st.out ++ ['-'] }
  else if c = 'P' then st
  else if c = 'T' then { st with time := true }
  else if c = 'Y' then
    { st with out := st.out ++ natDigits st.num1 ++ " Year".data ++ s ++ ", ".data, num1 := 0 }
  else if c = 'M' then
    if !st.time then
      { st with out := st.out ++ natDigits st.num1 ++ " Month".data ++ s ++ ", ".data, num1 := 0 }
    else
      { st with out := st.out ++ natDigits st.num1 ++ " Minute".data ++ s ++ ", ".data, num1 := 0 }
  else if c = 'W' then
    { st with out := st.out ++ natDigits st.num1 ++ " Weak".data ++ s ++ ", ".data, num1 := 0 }
  else if c = 'D' then
    { st with out := st.out ++ natDigits st.num1 ++ " Day".data ++ s ++ ", ".data, num1 := 0 }
  else if c = 'H' then
    { st with out := st.out ++ natDigits st.num1 ++ " Hour".data ++ s ++ ", ".data, num1 := 0 }
  else if c = 'S' then
    let out := st.out ++ natDigits st.num1 ++ " Second".data ++ s ++ ", ".data
    if 0 < st.num2 then
      { st with out := out ++ natDigits st.num2 ++ " Nanoseconds".data }
    else
      { st with out := out }
  else st

/-- timedelta_str_to_preety (main.rs:569-632). -/
def timedelta_str_to_preety (s : String) : String :=
  String.mk (s.data.foldl pretty_step ⟨[], 0, 0, false, false⟩).out

/-- Modelled from the claim's words (C3): the text begins with an optional
single '-' immediately followed by 'P'. -/
def singleMinusLeadSpec : List Char → Bool
  | 'P' :: _ => true
  | '-' :: 'P' :: _ => true
  | _ => false

/-- The lead-in shape the code actually accepts: a run of zero or more '-'
characters immediately followed by 'P'. -/
def minusRunThenP : List Char → Bool
  | [] => false
  | c :: cs => if c = '-' then minusRunThenP cs else c == 'P'

def encSecs (td : TimeDelta) : Int := |td.secs|

def yearsOf (td : TimeDelta) : Int := encSecs td / YEAR_IN_SECONDS

def remY (td : TimeDelta) : Int := encSecs td % YEAR_IN_SECONDS

def monthsOf (td : TimeDelta) : Int := remY td / MONTH_IN_SECONDS

def remMo (td : TimeDelta) : Int := remY td % MONTH_IN_SECONDS

def weeksOf (td : TimeDelta) : Int := remMo td / WEAK_IN_SECONDS

def remW (td : TimeDelta) : Int := remMo td % WEAK_IN_SECONDS

def daysOf (td : TimeDelta) : Int := remW td / DAY_IN_SECONDS

def remD (td : TimeDelta) : Int := remW td % DAY_IN_SECONDS

def hoursOf (td : TimeDelta) : Int := remD td / HOUR_IN_SECONDS

def remH (td : TimeDelta) : Int := remD td % HOUR_IN_SECONDS

def minutesOf (td : TimeDelta) : Int := remH td / MINUTE_IN_SECONDS

def remMin (td : TimeDelta) : Int := remH td % MINUTE_IN_SECONDS

theorem wrap64_eq_of (x : Int) (h1 : -9223372036854775808 ≤ x)
    (h2 : x < 9223372036854775808) : wrap64 x = x := by
  unfold wrap64; omega

theorem wrap64_wrap_add (a b : Int) : wrap64 (wrap64 a + b) = wrap64 (a + b) := by
  unfold wrap64; omega

theorem digitChar_spec (k : Nat) (h : k < 10) :
    isDigitChar (digitChar k) = true ∧ (digitChar k).toNat - 48 = k := by
  interval_cases k <;> exact ⟨by decide, by decide⟩

theorem decodeLoop_digitsGo (fuel : Nat) : ∀ (n : Nat), n < fuel →
    n < 9223372036854775808 →
    ∀ (st : DecodeState) (cs : List Char), st.dec = false → st.num1 = 0 →
    decodeLoop (natDigitsGo fuel n ++ cs) st = decodeLoop cs { st with num1 := (n : Int) } := by
  have key : ∀ (a : Int) (k : Nat), 0 ≤ a → a * 10 + (k : Int) < 9223372036854775808 →
      wrap64 (wrap64 (a * 10) + (k : Int)) = a * 10 + (k : Int) := by
    intro a k ha hb
    rw [wrap64_wrap_add, wrap64_eq_of] <;> omega
  induction fuel with
  | zero => intro n h; exact absurd h (Nat.not_lt_zero n)
  | succ fuel ih =>
    intro n hfuel hbound st cs hdec hnum
    by_cases h10 : n < 10
    · obtain ⟨hd, hv⟩ := digitChar_spec n h10
      simp only [natDigitsGo, if_pos h10, List.cons_append, List.nil_append,
        decodeLoop, hd, hdec, Bool.not_false, if_true, hv, hnum]
      rw [key 0 n (le_refl 0) (by omega)]
      norm_num
    · have h1 : n / 10 < fuel := by omega
      obtain ⟨hd, hv⟩ := digitChar_spec (n % 10) (by omega)
      simp only [natDigitsGo, if_neg h10, List.append_assoc, List.cons_append, List.nil_append]
      rw [ih (n / 10) h1 (by omega) st (digitChar (n % 10) :: cs) hdec hnum]
      simp only [decodeLoop, hd, hdec, Bool.not_false, if_true, hv]
      rw [key (↑(n / 10)) (n % 10) (by omega) (by omega)]
      have heq : ((n / 10 : Nat) : Int) * 10 + ((n % 10 : Nat) : Int) = (n : Int) := by
        omega
      rw [heq]

theorem decodeLoop_digitsGo_frac (fuel : Nat) : ∀ (n : Nat), n < fuel →
    n < 4294967296 →
    ∀ (st : DecodeState) (cs : List Char), st.dec = true → st.num2 = 0 →
    decodeLoop (natDigitsGo fuel n ++ cs) st = decodeLoop cs { st with num2 := n } := by
  have key : ∀ (a k : Nat), a * 10 + k < 4294967296 →
      ((a * 10) % 4294967296 + k) % 4294967296 = a * 10 + k := by
    intro a k hb; omega
  induction fuel with
  | zero => intro n h; exact absurd h (Nat.not_lt_zero n)
  | succ fuel ih =>
    intro n hfuel hbound st cs hdec hnum
    by_cases h10 : n < 10
    · obtain ⟨hd, hv⟩ := digitChar_spec n h10
      simp only [natDigitsGo, if_pos h10, List.cons_append, List.nil_append,
        decodeLoop, hd, hdec, Bool.not_true, if_false, hv, hnum, Bool.false_eq_true,
        eq_self_iff_true, if_true]
      rw [key 0 n (by omega)]
      norm_num
    · have h1 : n / 10 < fuel := by omega
      obtain ⟨hd, hv⟩ := digitChar_spec (n % 10) (by omega)
      simp only [natDigitsGo, if_neg h10, List.append_assoc, List.cons_append, List.nil_append]
      rw [ih (n / 10) h1 (by omega) st (digitChar (n % 10) :: cs) hdec hnum]
      simp only [decodeLoop, hd, hdec, Bool.not_true, Bool.false_eq_true, if_false, hv,
        eq_self_iff_true, if_true]
      rw [key (n / 10) (n % 10) (by omega)]
      have heq : n / 10 * 10 + n % 10 = n := by omega
      rw [heq]

theorem step_Y (st : DecodeState) (cs : List Char) :
    decodeLoop ('Y' :: cs) st =
      decodeLoop cs { st with
        seconds := wrap64 (st.seconds + wrap64 (st.num1 * YEAR_IN_SECONDS)), num1 := 0 } := rfl

theorem step_M (st : DecodeState) (cs : List Char) :
    decodeLoop ('M' :: cs) st =
      if st.time then
        decodeLoop cs { st with
          seconds := wrap64 (st.seconds + wrap64 (st.num1 * MINUTE_IN_SECONDS)), num1 := 0 }
      else
        decodeLoop cs { st with
          seconds := wrap64 (st.seconds + wrap64 (st.num1 * MONTH_IN_SECONDS)), num1 := 0 } := rfl

theorem step_W (st : DecodeState) (cs : List Char) :
    decodeLoop ('W' :: cs) st =
      decodeLoop cs { st with
        seconds := wrap64 (st.seconds + wrap64 (st.num1 * WEAK_IN_SECONDS)), num1 := 0 } := rfl

theorem step_D (st : DecodeState) (cs : List Char) :
    decodeLoop ('D' :: cs) st =
      decodeLoop cs { st with
        seconds := wrap64 (st.seconds + wrap64 (st.num1 * DAY_IN_SECONDS)), num1 := 0 } := rfl

theorem step_T (st : DecodeState) (cs : List Char) :
    decodeLoop ('T' :: cs) st = decodeLoop cs { st with num1 := 0, time := true } := rfl

theorem step_H (st : DecodeState) (cs : List Char) :
    decodeLoop ('H' :: cs) st =
      decodeLoop cs { st with
        seconds := wrap64 (st.seconds + wrap64 (st.num1 * HOUR_IN_SECONDS)), num1 := 0 } := rfl

theorem step_dot (st : DecodeState) (cs : List Char) :
    decodeLoop ('.' :: cs) st = decodeLoop cs { st with dec := true } := rfl

theorem step_S (st : DecodeState) (cs : List Char) :
    decodeLoop ('S' :: cs) st =
      decodeLoop cs { st with
        seconds := wrap64 (st.seconds + st.num1),
        nanos := (st.nanos + st.num2) % 4294967296 } := rfl

theorem decode_unit_chunk (C : Char) (u n : Int) (st : DecodeState) (cs : List Char)
    (hstep : ∀ st' : DecodeState, st'.time = st.time →
      decodeLoop (C :: cs) st' =
        decodeLoop cs { st' with
          seconds := wrap64 (st'.seconds + wrap64 (st'.num1 * u)), num1 := 0 })
    (hn : 0 ≤ n) (hu : 0 < u)
    (hdec : st.dec = false) (hnum : st.num1 = 0) (hsec : 0 ≤ st.seconds)
    (hb : st.seconds + n * u < 9223372036854775808) :
    decodeLoop ((if 0 < n then intDigits n ++ [C] else []) ++ cs) st =
      decodeLoop cs { st with seconds := st.seconds + n * u, num1 := 0 } := by
  have hnu : 0 ≤ n * u := mul_nonneg hn (le_of_lt hu)
  have hle : n ≤ n * u := le_mul_of_one_le_right hn (by omega)
  have hn63 : n < 9223372036854775808 := by linarith
  by_cases hpos : 0 < n
  · rw [if_pos hpos, intDigits, if_neg (by omega), natDigits, List.append_assoc,
      List.cons_append, List.nil_append,
      decodeLoop_digitsGo (n.toNat + 1) n.toNat (by omega) (by omega) st (C :: cs) hdec hnum,
      hstep ⟨st.seconds, st.nanos, (n.toNat : Int), st.num2, st.dec, st.time⟩ rfl]
    have h1 : ((n.toNat : Int)) = n := Int.toNat_of_nonneg hn
    simp only [h1]
    rw [wrap64_eq_of (n * u) (by linarith) (by linarith),
      wrap64_eq_of (st.seconds + n * u) (by linarith) hb]
  · have h0 : n = 0 := by omega
    subst h0
    rw [if_neg hpos, List.nil_append]
    obtain ⟨sec, na, n1, n2, dc, tm⟩ := st
    simp only at hnum
    subst hnum
    norm_num

theorem encUnit_eq (f fl : TimedeltaFlags) (hc : f.contains fl = true) (u : Int) (L : Char)
    (s : Int) (out : List Char) (hs : 0 ≤ s) (hu : 0 < u) :
    encUnit f fl u L (s, out) =
      (s % u, out ++ (if 0 < s / u then intDigits (s / u) ++ [L] else [])) := by
  simp only [encUnit, hc, if_true]
  by_cases hpos : 0 < s / u
  · simp only [if_pos hpos, List.append_assoc]
    have hmod : s - s / u * u = s % u := by rw [Int.emod_def]; ring
    rw [hmod]
  · simp only [if_neg hpos, List.append_nil]
    have h0 : s / u = 0 := le_antisymm (not_lt.mp hpos) (Int.ediv_nonneg hs (le_of_lt hu))
    have hmod : s % u = s := by rw [Int.emod_def, h0]; ring
    rw [hmod]

theorem encode_all (td : TimeDelta) :
    timedelta_to_chars td TimedeltaFlags.all =
      (if td.num_seconds < 0 then ['-'] else []) ++
      'P' ::
      ((if 0 < yearsOf td then intDigits (yearsOf td) ++ ['Y'] else []) ++
       ((if 0 < monthsOf td then intDigits (monthsOf td) ++ ['M'] else []) ++
        ((if 0 < weeksOf td then intDigits (weeksOf td) ++ ['W'] else []) ++
         ((if 0 < daysOf td then intDigits (daysOf td) ++ ['D'] else []) ++
          ('T' ::
           ((if 0 < hoursOf td then intDigits (hoursOf td) ++ ['H'] else []) ++
            ((if 0 < minutesOf td then intDigits (minutesOf td) ++ ['M'] else []) ++
             (if |td.nanos| != 0 then
                intDigits (remMin td) ++ '.' :: (intDigits |td.nanos| ++ ['S'])
              else intDigits (remMin td) ++ ['S'])))))))) := by
  have hs0 : (0 : Int) ≤ |td.secs| := abs_nonneg _
  have h1 : (0 : Int) ≤ |td.secs| % YEAR_IN_SECONDS := Int.emod_nonneg _ (by decide)
  have h2 : (0 : Int) ≤ |td.secs| % YEAR_IN_SECONDS % MONTH_IN_SECONDS :=
    Int.emod_nonneg _ (by decide)
  have h3 : (0 : Int) ≤ |td.secs| % YEAR_IN_SECONDS % MONTH_IN_SECONDS % WEAK_IN_SECONDS :=
    Int.emod_nonneg _ (by decide)
  have h4 : (0 : Int) ≤
      |td.secs| % YEAR_IN_SECONDS % MONTH_IN_SECONDS % WEAK_IN_SECONDS % DAY_IN_SECONDS :=
    Int.emod_nonneg _ (by decide)
  have h5 : (0 : Int) ≤
      |td.secs| % YEAR_IN_SECONDS % MONTH_IN_SECONDS % WEAK_IN_SECONDS % DAY_IN_SECONDS
        % HOUR_IN_SECONDS :=
    Int.emod_nonneg _ (by decide)
  simp only [timedelta_to_chars]
  rw [encUnit_eq _ _ (by decide) _ _ _ _ hs0 (by decide)]
  rw [encUnit_eq _ _ (by decide) _ _ _ _ h1 (by decide)]
  rw [encUnit_eq _ _ (by decide) _ _ _ _ h2 (by decide)]
  rw [encUnit_eq _ _ (by decide) _ _ _ _ h3 (by decide)]
  simp only [show (TimedeltaFlags.all.contains TimedeltaFlags.HOUR ||
      TimedeltaFlags.all.contains TimedeltaFlags.MINUTE ||
      TimedeltaFlags.all.contains TimedeltaFlags.SECOND) = true from rfl, if_true]
  rw [encUnit_eq _ _ (by decide) _ _ _ _ h4 (by decide)]
  rw [encUnit_eq _ _ (by decide) _ _ _ _ h5 (by decide)]
  simp only [show TimedeltaFlags.all.contains TimedeltaFlags.SECOND = true from rfl,
    show TimedeltaFlags.all.contains TimedeltaFlags.NANOS = true from rfl, if_true,
    Bool.and_true]
  simp only [yearsOf, remY, monthsOf, remMo, weeksOf, remW, daysOf, remD, hoursOf, remH,
    minutesOf, remMin, encSecs, List.append_assoc, List.cons_append, List.nil_append]
  by_cases hnn : (|td.nanos| != 0) = true
  · simp only [if_pos hnn]
  · simp only [if_neg hnn]

theorem decodeLoop_encoded (y mo w d h mi rem nn : Int)
    (hy : 0 ≤ y) (hmo : 0 ≤ mo) (hw : 0 ≤ w) (hd : 0 ≤ d) (hh : 0 ≤ h) (hmi : 0 ≤ mi)
    (hrem : 0 ≤ rem) (hnn : 0 ≤ nn) (hnb : nn < 1000000000)
    (htot : y * YEAR_IN_SECONDS + mo * MONTH_IN_SECONDS + w * WEAK_IN_SECONDS +
      d * DAY_IN_SECONDS + h * HOUR_IN_SECONDS + mi * MINUTE_IN_SECONDS + rem
      ≤ 9223372036854776) :
    ∃ st : DecodeState,
      decodeLoop
        ((if 0 < y then intDigits y ++ ['Y'] else []) ++
         ((if 0 < mo then intDigits mo ++ ['M'] else []) ++
          ((if 0 < w then intDigits w ++ ['W'] else []) ++
           ((if 0 < d then intDigits d ++ ['D'] else []) ++
            ('T' ::
             ((if 0 < h then intDigits h ++ ['H'] else []) ++
              ((if 0 < mi then intDigits mi ++ ['M'] else []) ++
               (if nn != 0 then intDigits rem ++ '.' :: (intDigits nn ++ ['S'])
                else intDigits rem ++ ['S']))))))))
        initState = some st ∧
      st.seconds = y * YEAR_IN_SECONDS + mo * MONTH_IN_SECONDS + w * WEAK_IN_SECONDS +
        d * DAY_IN_SECONDS + h * HOUR_IN_SECONDS + mi * MINUTE_IN_SECONDS + rem ∧
      st.nanos = nn.toNat := by
  have k1 : YEAR_IN_SECONDS = 31536000 := rfl
  have k2 : MONTH_IN_SECONDS = 2628000 := by decide
  have k3 : WEAK_IN_SECONDS = 604800 := rfl
  have k4 : DAY_IN_SECONDS = 86400 := rfl
  have k5 : HOUR_IN_SECONDS = 3600 := rfl
  have k6 : MINUTE_IN_SECONDS = 60 := rfl
  have htot9 : y * 31536000 + mo * 2628000 + w * 604800 + d * 86400 + h * 3600 + mi * 60
      + rem ≤ 9223372036854776 := by rw [k1, k2, k3, k4, k5, k6] at htot; exact htot
  set L7 : List Char :=
    (if nn != 0 then intDigits rem ++ '.' :: (intDigits nn ++ ['S'])
     else intDigits rem ++ ['S']) with hL7
  set L6 : List Char := (if 0 < mi then intDigits mi ++ ['M'] else []) ++ L7 with hL6
  set L5 : List Char := (if 0 < h then intDigits h ++ ['H'] else []) ++ L6 with hL5
  set L4 : List Char := 'T' :: L5 with hL4
  set L3 : List Char := (if 0 < d then intDigits d ++ ['D'] else []) ++ L4 with hL3
  set L2 : List Char := (if 0 < w then intDigits w ++ ['W'] else []) ++ L3 with hL2
  set L1 : List Char := (if 0 < mo then intDigits mo ++ ['M'] else []) ++ L2 with hL1
  have sY : decodeLoop ((if 0 < y then intDigits y ++ ['Y'] else []) ++ L1) initState =
      decodeLoop L1 ⟨0 + y * YEAR_IN_SECONDS, 0, 0, 0, false, false⟩ :=
    decode_unit_chunk 'Y' YEAR_IN_SECONDS y initState L1 (fun st' _ => step_Y st' L1)
      hy (by decide) rfl rfl (by decide)
      (by show (0 : Int) + y * YEAR_IN_SECONDS < 9223372036854775808; rw [k1]; omega)
  have sMo : decodeLoop L1 ⟨0 + y * YEAR_IN_SECONDS, 0, 0, 0, false, false⟩ =
      decodeLoop L2 ⟨0 + y * YEAR_IN_SECONDS + mo * MONTH_IN_SECONDS, 0, 0, 0, false, false⟩ := by
    rw [hL1]
    exact decode_unit_chunk 'M' MONTH_IN_SECONDS mo _ L2
      (fun st' ht => by rw [step_M st' L2, ht]; rfl)
      hmo (by decide) rfl rfl (by show (0:Int) ≤ 0 + y * YEAR_IN_SECONDS; rw [k1]; omega)
      (by show (0:Int) + y * YEAR_IN_SECONDS + mo * MONTH_IN_SECONDS < 9223372036854775808
          rw [k1, k2]; omega)
  have sW : decodeLoop L2 ⟨0 + y * YEAR_IN_SECONDS + mo * MONTH_IN_SECONDS, 0, 0, 0, false, false⟩ =
      decodeLoop L3 ⟨0 + y * YEAR_IN_SECONDS + mo * MONTH_IN_SECONDS + w * WEAK_IN_SECONDS,
        0, 0, 0, false, false⟩ := by
    rw [hL2]
    exact decode_unit_chunk 'W' WEAK_IN_SECONDS w _ L3 (fun st' _ => step_W st' L3)
      hw (by decide) rfl rfl
      (by show (0:Int) ≤ 0 + y * YEAR_IN_SECONDS + mo * MONTH_IN_SECONDS; rw [k1, k2]; omega)
      (by show (0:Int) + y * YEAR_IN_SECONDS + mo * MONTH_IN_SECONDS + w * WEAK_IN_SECONDS
            < 9223372036854775808
          rw [k1, k2, k3]; omega)
  have sD : decodeLoop L3 ⟨0 + y * YEAR_IN_SECONDS + mo * MONTH_IN_SECONDS + w * WEAK_IN_SECONDS,
        0, 0, 0, false, false⟩ =
      decodeLoop L4 ⟨0 + y * YEAR_IN_SECONDS + mo * MONTH_IN_SECONDS + w * WEAK_IN_SECONDS
        + d * DAY_IN_SECONDS, 0, 0, 0, false, false⟩ := by
    rw [hL3]
    exact decode_unit_chunk 'D' DAY_IN_SECONDS d _ L4 (fun st' _ => step_D st' L4)
      hd (by decide) rfl rfl
      (by show (0:Int) ≤ 0 + y * YEAR_IN_SECONDS + mo * MONTH_IN_SECONDS + w * WEAK_IN_SECONDS
          rw [k1, k2, k3]; omega)
      (by show (0:Int) + y * YEAR_IN_SECONDS + mo * MONTH_IN_SECONDS + w * WEAK_IN_SECONDS
            + d * DAY_IN_SECONDS < 9223372036854775808
          rw [k1, k2, k3, k4]; omega)
  have sT : decodeLoop L4 ⟨0 + y * YEAR_IN_SECONDS + mo * MONTH_IN_SECONDS + w * WEAK_IN_SECONDS
        + d * DAY_IN_SECONDS, 0, 0, 0, false, false⟩ =
      decodeLoop L5 ⟨0 + y * YEAR_IN_SECONDS + mo * MONTH_IN_SECONDS + w * WEAK_IN_SECONDS
        + d * DAY_IN_SECONDS, 0, 0, 0, false, true⟩ := by
    rw [hL4]
    exact step_T _ L5
  have sH : decodeLoop L5 ⟨0 + y * YEAR_IN_SECONDS + mo * MONTH_IN_SECONDS + w * WEAK_IN_SECONDS
        + d * DAY_IN_SECONDS, 0, 0, 0, false, true⟩ =
      decodeLoop L6 ⟨0 + y * YEAR_IN_SECONDS + mo * MONTH_IN_SECONDS + w * WEAK_IN_SECONDS
        + d * DAY_IN_SECONDS + h * HOUR_IN_SECONDS, 0, 0, 0, false, true⟩ := by
    rw [hL5]
    exact decode_unit_chunk 'H' HOUR_IN_SECONDS h _ L6 (fun st' _ => step_H st' L6)
      hh (by decide) rfl rfl
      (by show (0:Int) ≤ 0 + y * YEAR_IN_SECONDS + mo * MONTH_IN_SECONDS + w * WEAK_IN_SECONDS
            + d * DAY_IN_SECONDS
          rw [k1, k2, k3, k4]; omega)
      (by show (0:Int) + y * YEAR_IN_SECONDS + mo * MONTH_IN_SECONDS + w * WEAK_IN_SECONDS
            + d * DAY_IN_SECONDS + h * HOUR_IN_SECONDS < 9223372036854775808
          rw [k1, k2, k3, k4, k5]; omega)
  have sMi : decodeLoop L6 ⟨0 + y * YEAR_IN_SECONDS + mo * MONTH_IN_SECONDS + w * WEAK_IN_SECONDS
        + d * DAY_IN_SECONDS + h * HOUR_IN_SECONDS, 0, 0, 0, false, true⟩ =
      decodeLoop L7 ⟨0 + y * YEAR_IN_SECONDS + mo * MONTH_IN_SECONDS + w * WEAK_IN_SECONDS
        + d * DAY_IN_SECONDS + h * HOUR_IN_SECONDS + mi * MINUTE_IN_SECONDS,
        0, 0, 0, false, true⟩ := by
    rw [hL6]
    exact decode_unit_chunk 'M' MINUTE_IN_SECONDS mi _ L7
      (fun st' ht => by rw [step_M st' L7, ht]; rfl)
      hmi (by decide) rfl rfl
      (by show (0:Int) ≤ 0 + y * YEAR_IN_SECONDS + mo * MONTH_IN_SECONDS + w * WEAK_IN_SECONDS
            + d * DAY_IN_SECONDS + h * HOUR_IN_SECONDS
          rw [k1, k2, k3, k4, k5]; omega)
      (by show (0:Int) + y * YEAR_IN_SECONDS + mo * MONTH_IN_SECONDS + w * WEAK_IN_SECONDS
            + d * DAY_IN_SECONDS + h * HOUR_IN_SECONDS + mi * MINUTE_IN_SECONDS
            < 9223372036854775808
          rw [k1, k2, k3, k4, k5, k6]; omega)
  have hcommon := sY.trans (sMo.trans (sW.trans (sD.trans (sT.trans (sH.trans sMi)))))
  have hsec6nn : (0:Int) ≤ 0 + y * YEAR_IN_SECONDS + mo * MONTH_IN_SECONDS + w * WEAK_IN_SECONDS
      + d * DAY_IN_SECONDS + h * HOUR_IN_SECONDS + mi * MINUTE_IN_SECONDS := by
    rw [k1, k2, k3, k4, k5, k6]; omega
  by_cases hz : nn = 0
  · subst hz
    have hL7z : L7 = intDigits rem ++ ['S'] := by rw [hL7]; norm_num
    have htail : decodeLoop L7 ⟨0 + y * YEAR_IN_SECONDS + mo * MONTH_IN_SECONDS
        + w * WEAK_IN_SECONDS + d * DAY_IN_SECONDS + h * HOUR_IN_SECONDS
        + mi * MINUTE_IN_SECONDS, 0, 0, 0, false, true⟩ =
        some ⟨y * YEAR_IN_SECONDS + mo * MONTH_IN_SECONDS + w * WEAK_IN_SECONDS
          + d * DAY_IN_SECONDS + h * HOUR_IN_SECONDS + mi * MINUTE_IN_SECONDS + rem,
          0, (rem.toNat : Int), 0, false, true⟩ := by
      rw [hL7z]
      simp only [intDigits, natDigits]
      rw [if_neg (show ¬rem < 0 by omega)]
      rw [decodeLoop_digitsGo (rem.toNat + 1) rem.toNat (by omega)
          (by rw [k1, k2, k3, k4, k5, k6] at htot; omega) _ ['S'] rfl rfl,
        step_S]
      simp only [decodeLoop, Option.some.injEq, DecodeState.mk.injEq, and_true, true_and]
      rw [Int.toNat_of_nonneg hrem, wrap64_eq_of]
      · rw [k1, k2, k3, k4, k5, k6]; omega
      · rw [k1, k2, k3, k4, k5, k6]; omega
      · rw [k1, k2, k3, k4, k5, k6]; omega
    exact ⟨_, hcommon.trans htail, rfl, rfl⟩
  · have hbne : (nn != 0) = true := by simpa [bne_iff_ne] using hz
    have hL7z : L7 = intDigits rem ++ '.' :: (intDigits nn ++ ['S']) := by
      rw [hL7, if_pos hbne]
    have htail : decodeLoop L7 ⟨0 + y * YEAR_IN_SECONDS + mo * MONTH_IN_SECONDS
        + w * WEAK_IN_SECONDS + d * DAY_IN_SECONDS + h * HOUR_IN_SECONDS
        + mi * MINUTE_IN_SECONDS, 0, 0, 0, false, true⟩ =
        some ⟨y * YEAR_IN_SECONDS + mo * MONTH_IN_SECONDS + w * WEAK_IN_SECONDS
          + d * DAY_IN_SECONDS + h * HOUR_IN_SECONDS + mi * MINUTE_IN_SECONDS + rem,
          nn.toNat, (rem.toNat : Int), nn.toNat, true, true⟩ := by
      rw [hL7z]
      simp only [intDigits, natDigits]
      rw [if_neg (show ¬rem < 0 by omega), if_neg (show ¬nn < 0 by omega)]
      rw [decodeLoop_digitsGo (rem.toNat + 1) rem.toNat (by omega)
          (by rw [k1, k2, k3, k4, k5, k6] at htot; omega) _
          ('.' :: (natDigitsGo (nn.toNat + 1) nn.toNat ++ ['S'])) rfl rfl,
        step_dot,
        decodeLoop_digitsGo_frac (nn.toNat + 1) nn.toNat (by omega) (by omega) _ ['S'] rfl rfl,
        step_S]
      simp only [decodeLoop, Option.some.injEq, DecodeState.mk.injEq, and_true, true_and,
        Nat.zero_add]
      refine ⟨?_, ?_⟩
      · rw [Int.toNat_of_nonneg hrem, wrap64_eq_of]
        · rw [k1, k2, k3, k4, k5, k6]; omega
        · rw [k1, k2, k3, k4, k5, k6]; omega
        · rw [k1, k2, k3, k4, k5, k6]; omega
      · omega
    exact ⟨_, hcommon.trans htail, rfl, rfl⟩

theorem from_str_mk_neg (rest : List Char) :
    timedelta_from_str (String.mk ('-' :: 'P' :: rest)) =
      (match decodeLoop rest initState with
       | none => none
       | some st => TimeDelta.new (wrap64 (st.seconds * -1)) st.nanos) := rfl

theorem from_str_mk_pos (rest : List Char) :
    timedelta_from_str (String.mk ('P' :: rest)) =
      (match decodeLoop rest initState with
       | none => none
       | some st => TimeDelta.new (wrap64 (st.seconds * 1)) st.nanos) := rfl

theorem TimeDelta.new_eq_some (secs : Int) (nanos : Nat)
    (h1 : -9223372036854776 ≤ secs) (h2 : secs ≤ 9223372036854775)
    (h3 : (nanos : Int) < 1000000000)
    (h4 : secs = 9223372036854775 → (nanos : Int) ≤ 807000000)
    (h5 : secs = -9223372036854776 → (193000000 : Int) ≤ (nanos : Int)) :
    TimeDelta.new secs nanos = some ⟨secs, (nanos : Int)⟩ := by
  unfold TimeDelta.new MIN_SECS MAX_SECS MAX_NANOS MIN_NANOS
  rw [if_neg (by omega)]

/-- Claim C1 (amended): decode(encode(span, all-units)) reconstructs the span
exactly (hence identical total whole seconds and nanosecond remainder) for
every chrono-valid span that is not strictly between -1 and 0 seconds (raw
seconds field -1 with a non-zero nanosecond field); the digit-width proviso
of the claim is automatic because the encoder prints the remainder with no
leading zeros and the decoder reads it back literally. -/
theorem claim_C1_roundtrip (td : TimeDelta) (hv : td.Valid)
    (hx : ¬(td.secs = -1 ∧ 0 < td.nanos)) :
    timedelta_from_str (timedelta_to_str td TimedeltaFlags.all) = some td := by
  obtain ⟨hminS, hmaxS, hn0, hn9, hmaxN, hminN⟩ := hv
  rw [show MIN_SECS = -9223372036854776 from rfl] at hminS hminN
  rw [show MAX_SECS = 9223372036854775 from rfl] at hmaxS hmaxN
  rw [show MAX_NANOS = 807000000 from rfl] at hmaxN
  rw [show MIN_NANOS = 193000000 from rfl] at hminN
  have e0 : (0 : Int) ≤ encSecs td := abs_nonneg _
  have hsba : encSecs td ≤ 9223372036854776 := by
    unfold encSecs
    rcases abs_cases td.secs with ⟨he, _⟩ | ⟨he, _⟩ <;> rw [he] <;> omega
  have hy : 0 ≤ yearsOf td := Int.ediv_nonneg e0 (by decide)
  have e1 : 0 ≤ remY td := Int.emod_nonneg _ (by decide)
  have hmo : 0 ≤ monthsOf td := Int.ediv_nonneg e1 (by decide)
  have e2 : 0 ≤ remMo td := Int.emod_nonneg _ (by decide)
  have hw : 0 ≤ weeksOf td := Int.ediv_nonneg e2 (by decide)
  have e3 : 0 ≤ remW td := Int.emod_nonneg _ (by decide)
  have hd : 0 ≤ daysOf td := Int.ediv_nonneg e3 (by decide)
  have e4 : 0 ≤ remD td := Int.emod_nonneg _ (by decide)
  have hh : 0 ≤ hoursOf td := Int.ediv_nonneg e4 (by decide)
  have e5 : 0 ≤ remH td := Int.emod_nonneg _ (by decide)
  have hmi : 0 ≤ minutesOf td := Int.ediv_nonneg e5 (by decide)
  have e6 : 0 ≤ remMin td := Int.emod_nonneg _ (by decide)
  have htotal : yearsOf td * YEAR_IN_SECONDS + monthsOf td * MONTH_IN_SECONDS
      + weeksOf td * WEAK_IN_SECONDS + daysOf td * DAY_IN_SECONDS
      + hoursOf td * HOUR_IN_SECONDS + minutesOf td * MINUTE_IN_SECONDS
      + remMin td = encSecs td := by
    simp only [yearsOf, monthsOf, weeksOf, daysOf, hoursOf, minutesOf, remMin, remH, remD,
      remW, remMo, remY]
    rw [show YEAR_IN_SECONDS = 31536000 from rfl,
      show MONTH_IN_SECONDS = 2628000 from by decide,
      show WEAK_IN_SECONDS = 604800 from rfl, show DAY_IN_SECONDS = 86400 from rfl,
      show HOUR_IN_SECONDS = 3600 from rfl, show MINUTE_IN_SECONDS = 60 from rfl]
    omega
  have hnan0 : (0 : Int) ≤ |td.nanos| := abs_nonneg _
  have hnanb : |td.nanos| < 1000000000 := by
    rcases abs_cases td.nanos with ⟨he, _⟩ | ⟨he, _⟩ <;> rw [he] <;> omega
  have hnn2 : (((|td.nanos|).toNat : Int)) = td.nanos := by
    rw [Int.toNat_of_nonneg hnan0, abs_of_nonneg hn0]
  obtain ⟨st, hrun, hsec, hnan⟩ := decodeLoop_encoded (yearsOf td) (monthsOf td) (weeksOf td)
    (daysOf td) (hoursOf td) (minutesOf td) (remMin td) |td.nanos|
    hy hmo hw hd hh hmi e6 hnan0 hnanb (by rw [htotal]; exact hsba)
  rw [show timedelta_to_str td TimedeltaFlags.all
      = String.mk (timedelta_to_chars td TimedeltaFlags.all) from rfl, encode_all td]
  by_cases hneg : td.num_seconds < 0
  · have hsecneg : td.secs < 0 := by
      unfold TimeDelta.num_seconds at hneg; split at hneg <;> omega
    rw [if_pos hneg]
    simp only [List.cons_append, List.nil_append]
    rw [from_str_mk_neg, hrun]
    show TimeDelta.new (wrap64 (st.seconds * -1)) st.nanos = some td
    rw [hsec, htotal, show encSecs td = -td.secs from by unfold encSecs; exact abs_of_neg hsecneg,
      show -td.secs * -1 = td.secs from by ring,
      wrap64_eq_of td.secs (by omega) (by omega), hnan,
      TimeDelta.new_eq_some td.secs ((|td.nanos|).toNat) hminS hmaxS
        (by rw [hnn2]; omega) (by rw [hnn2]; omega) (by rw [hnn2]; omega),
      hnn2]
  · have hsecpos : 0 ≤ td.secs := by
      unfold TimeDelta.num_seconds at hneg; split at hneg <;> omega
    rw [if_neg hneg]
    simp only [List.nil_append]
    rw [from_str_mk_pos, hrun]
    show TimeDelta.new (wrap64 (st.seconds * 1)) st.nanos = some td
    rw [hsec, htotal, show encSecs td = td.secs from by unfold encSecs; exact abs_of_nonneg hsecpos,
      mul_one, wrap64_eq_of td.secs (by omega) (by omega), hnan,
      TimeDelta.new_eq_some td.secs ((|td.nanos|).toNat) hminS hmaxS
        (by rw [hnn2]; omega) (by rw [hnn2]; omega) (by rw [hnn2]; omega),
      hnn2]

theorem digitChar_ne_T (k : Nat) : digitChar k ≠ 'T' := by
  unfold digitChar; split <;> decide

theorem T_not_mem_natDigitsGo (fuel : Nat) : ∀ n, 'T' ∉ natDigitsGo fuel n := by
  induction fuel with
  | zero => intro n; simp [natDigitsGo]
  | succ fuel ih =>
    intro n
    unfold natDigitsGo
    by_cases h : n < 10
    · simp only [if_pos h, List.mem_singleton]
      exact fun hc => digitChar_ne_T n hc.symm
    · simp only [if_neg h, List.mem_append, List.mem_singleton]
      rintro (hc | hc)
      · exact ih _ hc
      · exact digitChar_ne_T _ hc.symm

theorem T_not_mem_intDigits (n : Int) : 'T' ∉ intDigits n := by
  unfold intDigits natDigits
  split
  · simp only [List.mem_cons]
    rintro (hc | hc)
    · exact absurd hc (by decide)
    · exact T_not_mem_natDigitsGo _ _ hc
  · exact T_not_mem_natDigitsGo _ _

theorem T_mem_encUnit (f fl : TimedeltaFlags) (u : Int) (L : Char) (hL : L ≠ 'T')
    (st : Int × List Char) : 'T' ∈ (encUnit f fl u L st).2 ↔ 'T' ∈ st.2 := by
  simp only [encUnit]
  split
  · split
    · simp only [List.mem_append, List.mem_singleton]
      constructor
      · rintro ((hc | hc) | hc)
        · exact hc
        · exact absurd hc (T_not_mem_intDigits _)
        · exact absurd hc.symm hL
      · exact fun hc => Or.inl (Or.inl hc)
    · exact Iff.rfl
  · exact Iff.rfl

theorem key_or_bit2 (a b : Nat) (ha : a &&& 4 = 0) (hb : b &&& 4 = 0) :
    (a ||| b) &&& 4 = 0 := by
  have h4 : (4 : Nat) = 2 ^ 2 := rfl
  rw [h4, Nat.and_two_pow] at ha hb ⊢
  rw [Nat.testBit_lor]
  cases h1 : a.testBit 2 <;> cases h2 : b.testBit 2 <;>
    simp [h1, h2] at ha hb ⊢

theorem newStep_week (acc : TimedeltaFlags) (c : Char) (h : acc.bits &&& 4 = 0) :
    (TimedeltaFlags.newStep acc c).bits &&& 4 = 0 := by
  unfold TimedeltaFlags.newStep
  split
  · exact key_or_bit2 _ _ h (by decide)
  · split
    · exact key_or_bit2 _ _ h (by decide)
    · split
      · exact key_or_bit2 _ _ h (by decide)
      · split
        · exact key_or_bit2 _ _ h (by decide)
        · split
          · exact key_or_bit2 _ _ h (by decide)
          · split
            · exact key_or_bit2 _ _ h (by decide)
            · split
              · exact key_or_bit2 _ _ h (by decide)
              · exact h

/-- Claim C8: for every span and every mask, the encoder's output contains
the character T if and only if the mask contains HOUR, MINUTE or SECOND,
independently of the span's value. -/
theorem claim_C8 (td : TimeDelta) (flags : TimedeltaFlags) :
    'T' ∈ timedelta_to_chars td flags ↔
      (flags.contains TimedeltaFlags.HOUR || flags.contains TimedeltaFlags.MINUTE
        || flags.contains TimedeltaFlags.SECOND) = true := by
  have eY := fun x => T_mem_encUnit flags TimedeltaFlags.YEAR YEAR_IN_SECONDS 'Y' (by decide) x
  have eMo := fun x => T_mem_encUnit flags TimedeltaFlags.MONTH MONTH_IN_SECONDS 'M' (by decide) x
  have eW := fun x => T_mem_encUnit flags TimedeltaFlags.WEEK WEAK_IN_SECONDS 'W' (by decide) x
  have eD := fun x => T_mem_encUnit flags TimedeltaFlags.DAY DAY_IN_SECONDS 'D' (by decide) x
  have eH := fun x => T_mem_encUnit flags TimedeltaFlags.HOUR HOUR_IN_SECONDS 'H' (by decide) x
  have eM := fun x => T_mem_encUnit flags TimedeltaFlags.MINUTE MINUTE_IN_SECONDS 'M' (by decide) x
  simp only [timedelta_to_chars]
  by_cases hc : (flags.contains TimedeltaFlags.HOUR || flags.contains TimedeltaFlags.MINUTE
      || flags.contains TimedeltaFlags.SECOND) = true
  · simp only [hc, if_true, iff_true]
    split
    · split
      · simp only [List.mem_append, eM, eH]
        refine Or.inl (Or.inl (Or.inl (Or.inl ?_)))
        simp [List.mem_append]
      · simp only [List.mem_append, eM, eH]
        refine Or.inl (Or.inl ?_)
        simp [List.mem_append]
    · rw [eM _, eH _]
      simp [List.mem_append]
  · have hcf : (flags.contains TimedeltaFlags.HOUR || flags.contains TimedeltaFlags.MINUTE
        || flags.contains TimedeltaFlags.SECOND) = false := by simpa using hc
    obtain ⟨hHM, hS⟩ := Bool.or_eq_false_iff.mp hcf
    obtain ⟨hH, hM⟩ := Bool.or_eq_false_iff.mp hHM
    simp only [hH, hM, hS, Bool.or_false, Bool.false_or, Bool.false_eq_true, if_false,
      iff_false]
    rw [eM _, eH _, eD _, eW _, eMo _, eY _]
    split
    · exact (by decide : 'T' ∉ (['-'] ++ ['P'] : List Char))
    · exact (by decide : 'T' ∉ (([] : List Char) ++ ['P']))

/-- Claim C2: the decoder's S step adds the pending fractional integer to the
nanosecond accumulator literally, with no rescaling by digit count:
decode("PT1.5S") is 1 second and 5 nanoseconds, not 500000000. -/
theorem claim_C2 :
    (∀ (st : DecodeState) (cs : List Char),
      decodeLoop ('S' :: cs) st =
        decodeLoop cs { st with
          seconds := wrap64 (st.seconds + st.num1),
          nanos := (st.nanos + st.num2) % 4294967296 }) ∧
    timedelta_from_str "PT1.5S" = some ⟨1, 5⟩ ∧
    timedelta_from_str "PT1.5S" ≠ some ⟨1, 500000000⟩ :=
  ⟨step_S, by decide, by decide⟩

theorem parseLead_none (cs : List Char) : ∀ sign : Int, minusRunThenP cs = false →
    parseLead cs sign = none := by
  induction cs with
  | nil => intro sign _; rfl
  | cons c cs ih =>
    intro sign h
    unfold minusRunThenP at h
    unfold parseLead
    by_cases hc : c = '-'
    · rw [if_pos hc] at h
      rw [if_pos hc]
      exact ih _ h
    · rw [if_neg hc] at h
      rw [if_neg hc, if_neg (by simpa [beq_eq_false_iff_ne] using h)]

/-- Claim C3 (amended): decode fails for every string that does not begin
with a run of zero or more '-' characters immediately followed by 'P'
(the code accepts any number of leading minus signs, not just one). -/
theorem claim_C3_amended (s : String) (h : minusRunThenP s.data = false) :
    timedelta_from_str s = none := by
  unfold timedelta_from_str
  rw [parseLead_none s.data 1 h]

/-- Claim C3 witness: the amended theorem applied to the input "X". -/
theorem claim_C3_witness : minusRunThenP "X".data = false ∧ timedelta_from_str "X" = none :=
  ⟨by decide, claim_C3_amended "X" (by decide)⟩

/-- Claim C3 counterexample: "--P" does not begin with an optional single '-'
followed by 'P', yet the decoder accepts it (each '-' in the lead-in loop
just re-sets the sign). -/
theorem claim_C3_counterexample :
    singleMinusLeadSpec "--P".data = false ∧ timedelta_from_str "--P" = some ⟨0, 0⟩ :=
  ⟨by decide, by decide⟩

theorem encUnit_zero (f fl : TimedeltaFlags) (u : Int) (L : Char) (out : List Char) :
    encUnit f fl u L (0, out) = (0, out) := by
  simp only [encUnit]
  split
  · rw [Int.zero_ediv]
    norm_num
  · rfl

/-- Claim C4 (amended): for the zero span the encoder yields "P" when none of
HOUR/MINUTE/SECOND is in the mask, "PT" when HOUR or MINUTE is present but
SECOND is not, and "PT0S" whenever SECOND is in the mask (the SECOND branch
always prints the remaining seconds, even when zero). -/
theorem claim_C4_amended (flags : TimedeltaFlags) :
    timedelta_to_str ⟨0, 0⟩ flags =
      if flags.contains TimedeltaFlags.SECOND then "PT0S"
      else if flags.contains TimedeltaFlags.HOUR || flags.contains TimedeltaFlags.MINUTE
        then "PT" else "P" := by
  rcases Bool.eq_false_or_eq_true (flags.contains TimedeltaFlags.SECOND) with hS | hS <;>
    rcases Bool.eq_false_or_eq_true (flags.contains TimedeltaFlags.HOUR) with hH | hH <;>
      rcases Bool.eq_false_or_eq_true (flags.contains TimedeltaFlags.MINUTE) with hM | hM <;>
        simp only [timedelta_to_str, timedelta_to_chars,
          show |((⟨0, 0⟩ : TimeDelta).secs)| = 0 from rfl,
          show |((⟨0, 0⟩ : TimeDelta).nanos)| = 0 from rfl,
          show (if (⟨0, 0⟩ : TimeDelta).num_seconds < 0 then (['-'] : List Char) else []) = []
            from rfl,
          hS, hH, hM, Bool.or_false, Bool.false_or, Bool.or_true, Bool.true_or,
          eq_self_iff_true, if_true, Bool.false_eq_true, if_false, encUnit_zero,
          bne_self_eq_false, Bool.false_and] <;>
        decide

/-- Claim C4 counterexample: with the mask {SECOND} the zero span encodes to
"PT0S", not "PT" as the claim states for any mask containing SECOND. -/
theorem claim_C4_counterexample :
    timedelta_to_str ⟨0, 0⟩ TimedeltaFlags.SECOND = "PT0S" ∧
    timedelta_to_str ⟨0, 0⟩ TimedeltaFlags.SECOND ≠ "PT" :=
  ⟨by decide, by decide⟩

/-- Claim C5 counterexample: in "PT1Y2M3DT4H5M6S" the T right after P
already sets the time-portion flag, so the M before the mid-string T is
rendered "Minute", not "Month" as the claim asserts. -/
theorem claim_C5_counterexample :
    timedelta_str_to_preety "PT1Y2M3DT4H5M6S"
      = "1 Year, 2 Minutes, 3 Days, 4 Hours, 5 Minutes, 6 Seconds, " ∧
    timedelta_str_to_preety "PT1Y2M3DT4H5M6S"
      ≠ "1 Year, 2 Months, 3 Days, 4 Hours, 5 Minutes, 6 Seconds, " :=
  ⟨by decide, by decide⟩

/-- Claim C5 (amended): the Month/Minute disambiguation by the time marker is
shown by "P1Y2M3DT4H5M6S" (no leading T): the M before the T renders Month,
the M after it renders Minute; with the leading T of "PT1Y2M3DT4H5M6S" both
render Minute. -/
theorem claim_C5_amended :
    timedelta_str_to_preety "P1Y2M3DT4H5M6S"
      = "1 Year, 2 Months, 3 Days, 4 Hours, 5 Minutes, 6 Seconds, " ∧
    timedelta_str_to_preety "PT1Y2M3DT4H5M6S"
      = "1 Year, 2 Minutes, 3 Days, 4 Hours, 5 Minutes, 6 Seconds, " :=
  ⟨by decide, by decide⟩

/-- Claim C6: at the failing input "P1W" the renderer emits "1 Weak, "
(misspelled unit name), not "1 Week, " as the claimed Year/Month/Week/...
name list requires. -/
theorem claim_C6_eval :
    timedelta_str_to_preety "P1W" = "1 Weak, " ∧
    timedelta_str_to_preety "P1W" ≠ "1 Week, " :=
  ⟨by decide, by decide⟩

/-- Claim C7: encoding the zero span with mask {SECOND, NANOS} yields "PT0S",
and with the empty mask yields "P". -/
theorem claim_C7 :
    timedelta_to_str ⟨0, 0⟩ (TimedeltaFlags.SECOND ||| TimedeltaFlags.NANOS) = "PT0S" ∧
    timedelta_to_str ⟨0, 0⟩ TimedeltaFlags.empty = "P" :=
  ⟨by decide, by decide⟩

/-- Claim C9: from_letters("sn") is exactly {SECOND, NANOS}, from_letters("X")
is the empty mask, and no input string ever yields a mask containing WEEK. -/
theorem claim_C9 :
    TimedeltaFlags.new "sn" = TimedeltaFlags.SECOND ||| TimedeltaFlags.NANOS ∧
    TimedeltaFlags.new "X" = TimedeltaFlags.empty ∧
    ∀ s : String, (TimedeltaFlags.new s).contains TimedeltaFlags.WEEK = false := by
  refine ⟨by decide, by decide, ?_⟩
  intro s
  have inv : ∀ (l : List Char) (acc : TimedeltaFlags), acc.bits &&& 4 = 0 →
      (l.foldl TimedeltaFlags.newStep acc).bits &&& 4 = 0 := by
    intro l
    induction l with
    | nil => intro acc h; exact h
    | cons c cs ih =>
      intro acc h
      exact ih _ (newStep_week acc c h)
  have h := inv s.data TimedeltaFlags.empty (by decide)
  unfold TimedeltaFlags.new at h ⊢
  unfold TimedeltaFlags.contains
  rw [show TimedeltaFlags.WEEK.bits = 4 from rfl, h]
  decide

/-- Claim C10: the leading minus is applied only to the accumulated seconds,
never to the nanosecond accumulator: whenever a successfully decoded input
accumulated zero seconds, the resulting span is non-negative even if the
input began with '-'; in particular decode("-PT0.5S") is +5 nanoseconds. -/
theorem claim_C10 :
    (∀ (s : String) (sign : Int) (rest : List Char) (st : DecodeState) (td : TimeDelta),
      parseLead s.data 1 = some (sign, rest) →
      decodeLoop rest initState = some st →
      st.seconds = 0 →
      timedelta_from_str s = some td →
      0 ≤ td.secs ∧ 0 ≤ td.nanos) ∧
    timedelta_from_str "-PT0.5S" = some ⟨0, 5⟩ := by
  constructor
  · intro s sign rest st td hlead hrun hzero hdec
    unfold timedelta_from_str at hdec
    rw [hlead] at hdec
    have hdec2 : (match decodeLoop rest initState with
        | none => none
        | some st => TimeDelta.new (wrap64 (st.seconds * sign)) st.nanos) = some td := hdec
    rw [hrun] at hdec2
    have hdec3 : TimeDelta.new (wrap64 (st.seconds * sign)) st.nanos = some td := hdec2
    rw [hzero, zero_mul, show wrap64 0 = 0 from by decide] at hdec3
    unfold TimeDelta.new at hdec3
    split at hdec3
    · exact absurd hdec3 (by simp)
    · cases hdec3
      exact ⟨le_refl 0, Int.ofNat_nonneg _⟩
  · decide

/-- Claim C10 witness: the theorem applied to the input "-PT0.5S". -/
theorem claim_C10_witness :
    (0 : Int) ≤ (⟨0, 5⟩ : TimeDelta).secs ∧ (0 : Int) ≤ (⟨0, 5⟩ : TimeDelta).nanos :=
  claim_C10.1 "-PT0.5S" (-1) ('T' :: '0' :: '.' :: '5' :: 'S' :: []) ⟨0, 5, 0, 5, true, true⟩
    ⟨0, 5⟩ (by decide) (by decide) (by decide) (by decide)

/-- Claim C1 witness: the amended round-trip theorem applied to the span
(1 s, 32 ns), matching the repository's own unit test. -/
theorem claim_C1_witness :
    TimeDelta.Valid ⟨1, 32⟩ ∧ ¬((⟨1, 32⟩ : TimeDelta).secs = -1 ∧ 0 < (⟨1, 32⟩ : TimeDelta).nanos) ∧
    timedelta_from_str (timedelta_to_str ⟨1, 32⟩ TimedeltaFlags.all) = some ⟨1, 32⟩ :=
  ⟨by decide, by decide, claim_C1_roundtrip ⟨1, 32⟩ (by decide) (by decide)⟩

/-- Claim C1 counterexample: the valid span with raw fields (-1, 500000000)
(a span strictly between -1 and 0 seconds, printed-digit proviso satisfied)
encodes to "PT1.500000000S" (the sign test uses num_seconds, which is 0, but
the magnitude uses the raw seconds field, which is -1), and decodes to the
span (1, 500000000), whose total whole seconds differ from the original. -/
theorem claim_C1_counterexample :
    TimeDelta.Valid ⟨-1, 500000000⟩ ∧
    timedelta_to_str ⟨-1, 500000000⟩ TimedeltaFlags.all = "PT1.500000000S" ∧
    timedelta_from_str (timedelta_to_str ⟨-1, 500000000⟩ TimedeltaFlags.all)
      = some ⟨1, 500000000⟩ ∧
    TimeDelta.num_seconds ⟨1, 500000000⟩ ≠ TimeDelta.num_seconds ⟨-1, 500000000⟩ :=
  ⟨by decide, by decide, by decide, by decide⟩

end TimeMan
